import Mathlib

/-!
Verification development for the TTD-DR research workflow
(`langgraph_ttd_dr`: `state.py`, `utils.py`, `nodes.py`, `tools.py`,
`workflow.py`).

Modelling conventions:
* Python `float` quality/relevance scores are modelled as `ℚ` (the code only
  ever compares, adds, multiplies and clamps them, so exact rationals are a
  faithful model of the control-relevant arithmetic).
* Python `str` is Lean `String`; `dict` is an insertion-ordered association
  list with last-write-wins update, matching CPython semantics.
* The external AI client (`state["client"].generate`) and the external search
  providers are oracles: their responses are parameters/streams.  The
  regex-based helpers `clean_reasoning_tags` and `parse_gap_analysis` are
  likewise abstracted: the oracle hands the node the cleaned text,
  respectively the parse result (`none` models the exception path of the
  `try`/`except` in `GapAnalyzerNode.process`).
* `float(value)` (Python's string-to-float conversion, used in
  `QualityEvaluatorNode._parse_quality_scores`) is a parameter
  `pf : String → Option ℚ`, `none` modelling `ValueError`.  `parseDecimal`
  below is a concrete instance covering plain decimal literals, used by
  witnesses.
* Timestamps (`datetime.now()`) and the `clarification_questions` extraction
  are informational only, touched by no claim, and are not modelled.
-/

namespace TTDDR

/-- Research gap record (`state.py` `ResearchGap`, as actually built by
`utils.py` / `parse_gap_analysis` / `create_fallback_gap`; the `status` field
is the plain string `"pending"` there).  The Python field `section` is named
`sectionLabel` because `section` is a Lean keyword. -/
structure ResearchGap where
  id : String
  sectionLabel : String
  gap_type : String
  specific_need : String
  search_query : String
  priority : String
  status : String
deriving DecidableEq

/-- Search result / source record as built in `tools.py` (`_search_tavily`,
`_search_duckduckgo`, `_search_naver`): fields `id`, `title`, `url`,
`content`, `raw_content`, `published_date`, `source`, `score`.
`WebSearchNode.process` later adds `gap_id` and `gap_section` keys, modelled
as `Option` fields that start out `none`. -/
structure SourceRec where
  id : String
  title : String
  url : String
  content : String
  raw_content : String
  published_date : String
  source : String
  score : ℚ
  gap_id : Option String := none
  gap_section : Option String := none
deriving DecidableEq

/-- Component fitness scores (`state.py` `ComponentFitness`). -/
structure ComponentFitness where
  search_strategy : ℚ
  synthesis_quality : ℚ
  integration_ability : ℚ
  gap_identification : ℚ
  enhancement_effectiveness : ℚ
deriving DecidableEq

/-- The workflow state (`state.py` `TTDResearchState`), restricted to the
fields the workflow nodes read or write (client/tool handles, timestamps and
`clarification_questions` omitted, see the module comment). -/
structure RState where
  query : String
  research_context : String
  max_iterations : Nat
  quality_threshold : ℚ
  current_iteration : Nat
  research_complete : Bool
  clarification_needed : Bool
  query_analysis : String
  research_plan : String
  current_draft : String
  previous_drafts : List String
  final_report : String
  research_gaps : List ResearchGap
  gap_analysis_text : String
  search_results : List SourceRec
  sources : List SourceRec
  quality_score : ℚ
  quality_scores : List (String × ℚ)
  quality_evaluation : String
  component_fitness : ComponentFitness
deriving DecidableEq

/-- `create_initial_state` (`state.py`), with the same defaults. -/
def createInitialState (query : String) (research_context : String := "")
    (max_iterations : Nat := 3) (quality_threshold : ℚ := 0.85) : RState where
  query := query
  research_context := research_context
  max_iterations := max_iterations
  quality_threshold := quality_threshold
  current_iteration := 0
  research_complete := false
  clarification_needed := false
  query_analysis := ""
  research_plan := ""
  current_draft := ""
  previous_drafts := []
  final_report := ""
  research_gaps := []
  gap_analysis_text := ""
  search_results := []
  sources := []
  quality_score := 0
  quality_scores := []
  quality_evaluation := ""
  component_fitness := ⟨1, 1, 1, 1, 1⟩

/-! Python `dict` modelled as an insertion-ordered association list:
`dictInsert` overwrites in place when the key exists (CPython keeps the
original position) and appends otherwise; `dictGet` is `dict.get`. -/

def dictGet (d : List (String × ℚ)) (k : String) : Option ℚ :=
  (d.find? (fun kv => kv.1 == k)).map (·.2)

def dictInsert (d : List (String × ℚ)) (k : String) (v : ℚ) :
    List (String × ℚ) :=
  if d.any (fun kv => kv.1 == k) then
    d.map (fun kv => if kv.1 == k then (k, v) else kv)
  else
    d ++ [(k, v)]

/-- `create_fallback_gap` (`utils.py`).  `fid` stands for the
`str(uuid.uuid4())[:8]` random token. -/
def createFallbackGap (query : String) (fid : String) : List ResearchGap :=
  [{ id := fid
     sectionLabel := "general"
     gap_type := "missing_information"
     specific_need := "Additional research needed for comprehensive coverage"
     search_query := "comprehensive research " ++ query
     priority := "medium"
     status := "pending" }]

/-- Gap selection logic of `GapAnalyzerNode.process` (`nodes.py` lines
160-167): `parsed = none` models the `except` branch of the surrounding
`try`, `some []` the case where `parse_gap_analysis` matched nothing; both
fall back to `create_fallback_gap`. -/
def gapAnalyzerGaps (parsed : Option (List ResearchGap)) (query fid : String) :
    List ResearchGap :=
  match parsed with
  | none => createFallbackGap query fid
  | some [] => createFallbackGap query fid
  | some gs => gs

/-- State update of `GapAnalyzerNode.process`: stores the gaps and the raw
analysis text. -/
def gapProcess (parsed : Option (List ResearchGap)) (resp fid : String)
    (s : RState) : RState :=
  { s with research_gaps := gapAnalyzerGaps parsed s.query fid
           gap_analysis_text := resp }

/-- Result collection of `WebSearchNode.process` (`nodes.py` lines 190-219):
for each gap with a truthy `search_query`, one `search_tool.search` call;
`res i = none` models a search that raised (caught and skipped), `some rs`
a successful call.  Each returned record gets `gap_id`/`gap_section`
metadata; all results are concatenated. -/
def webSearchCollect (res : Nat → Option (List SourceRec))
    (gaps : List ResearchGap) : List SourceRec :=
  (gaps.enum.map (fun p =>
    if p.2.search_query = "" then []
    else
      match res p.1 with
      | none => []
      | some rs => rs.map (fun r =>
          { r with gap_id := some p.2.id, gap_section := some p.2.sectionLabel }))).flatten

/-- `WebSearchNode.process`: returns the state unchanged when there are no
gaps, otherwise overwrites `search_results` with the collected results. -/
def webSearchProcess (res : Nat → Option (List SourceRec)) (s : RState) :
    RState :=
  if s.research_gaps = [] then s
  else { s with search_results := webSearchCollect res s.research_gaps }

/-- `EnhancementNode.process` (`nodes.py` lines 231-281): returns the state
unchanged when `search_results` is empty (before any generation call);
otherwise overwrites the draft with the (cleaned) response `resp`, appends
the prior draft to `previous_drafts`, extends `sources` with all search
results, and increments `current_iteration`. -/
def enhancementProcess (resp : String) (s : RState) : RState :=
  if s.search_results = [] then s
  else
    { s with current_draft := resp
             previous_drafts := s.previous_drafts ++ [s.current_draft]
             sources := s.sources ++ s.search_results
             current_iteration := s.current_iteration + 1 }

/-- One line of `QualityEvaluatorNode._parse_quality_scores`: strip the line,
and if it contains a colon, split at the first colon, strip the key, and
store `float(value.strip())` with `0.5` on `ValueError`. -/
def parseScoreLine (pf : String → Option ℚ) (scores : List (String × ℚ))
    (line : String) : List (String × ℚ) :=
  if (line.trim).contains ':' then
    match (line.trim).splitOn ":" with
    | [] => scores
    | k :: rest =>
      match pf ((String.intercalate ":" rest).trim) with
      | some v => dictInsert scores k.trim v
      | none => dictInsert scores k.trim 0.5
  else scores

/-- `QualityEvaluatorNode._parse_quality_scores` (`nodes.py` lines 334-349). -/
def parseQualityScores (pf : String → Option ℚ) (response : String) :
    List (String × ℚ) :=
  (response.splitOn "\n").foldl (parseScoreLine pf) []

/-- State update of `QualityEvaluatorNode.process` (`nodes.py` lines
318-328): `overall_quality = quality_scores.get("OVERALL_QUALITY", 0.5)`. -/
def qualityProcess (pf : String → Option ℚ) (resp : String) (s : RState) :
    RState :=
  let scores := parseQualityScores pf resp
  { s with quality_score := (dictGet scores "OVERALL_QUALITY").getD 0.5
           quality_scores := scores
           quality_evaluation := resp }

/-- `update_state_with_source_metadata` (`state.py` lines 194-217): extend
`sources` with only those new sources whose URL is not already present. -/
def updateStateWithSourceMetadata (s : RState) (newSources : List SourceRec) :
    RState :=
  let existingUrls := s.sources.map (·.url)
  let uniqueNewSources :=
    newSources.filter (fun r => !(existingUrls.contains r.url))
  { s with sources := s.sources ++ uniqueNewSources }

/-- `calculate_component_fitness` (`utils.py` lines 194-239).  Note the code
only adjusts the base scores when the corresponding input is truthy
(non-empty), and performs no clamping on the quality-derived scores. -/
def calculateComponentFitness (search_results : List SourceRec)
    (gaps_addressed : List String) (quality_scores : List (String × ℚ)) :
    ComponentFitness :=
  let fitness : ComponentFitness :=
    { search_strategy := 0.8
      synthesis_quality := 0.7
      integration_ability := 0.7
      gap_identification := 0.8
      enhancement_effectiveness := 0.7 }
  let fitness :=
    if search_results = [] then fitness
    else { fitness with
             search_strategy :=
               min 1 (0.8 + (search_results.length : ℚ) * 0.05) }
  let fitness :=
    if gaps_addressed = [] then fitness
    else { fitness with
             gap_identification :=
               min 1 (0.8 + (gaps_addressed.length : ℚ) * 0.1) }
  if quality_scores = [] then fitness
  else
    let overall_quality := (dictGet quality_scores "overall_quality").getD 0.7
    { fitness with
        synthesis_quality := overall_quality
        enhancement_effectiveness := overall_quality
        integration_ability :=
          (dictGet quality_scores "structure").getD 0.7 * 0.4 +
          (dictGet quality_scores "accuracy").getD 0.7 * 0.6 }

/-! Retriever (`tools.py` `WebSearchTool.search`).  Python's
`list.sort(key=..., reverse=True)` is a stable descending sort; we model it
by insertion sort that inserts each element before the first element whose
key is less than or equal to its own, preserving the original order of
equal keys. -/

/-- Stable descending insertion (model of one step of Python's stable sort
with `key=lambda x: x.get("score", 0), reverse=True`). -/
def insertByScoreDesc (x : SourceRec) : List SourceRec → List SourceRec
  | [] => [x]
  | y :: t => if y.score ≤ x.score then x :: y :: t else y :: insertByScoreDesc x t

/-- Stable descending sort by `score` (model of `all_results.sort(...)`). -/
def sortByScoreDesc (l : List SourceRec) : List SourceRec :=
  l.foldr insertByScoreDesc []

/-- Merge core of `WebSearchTool.search` (`tools.py` lines 100-128): one
entry per engine in `engines_to_use` (`none` models a caught per-engine
failure or an unrecognized engine name, which contributes no results but
still counts toward the cap), results concatenated, sorted descending by
`score`, and truncated to `max_results * len(engines_to_use)`.  No URL
deduplication happens here. -/
def webSearchToolMerge (engineResults : List (Option (List SourceRec)))
    (max_results : Nat) : List SourceRec :=
  let all_results := (engineResults.filterMap id).flatten
  (sortByScoreDesc all_results).take (max_results * engineResults.length)

/-! Workflow decision functions and graph (`workflow.py`). -/

/-- `should_search_gaps` (`workflow.py` lines 58-63). -/
def shouldSearchGaps (s : RState) : String :=
  if s.research_gaps ≠ [] ∧ 0 < s.research_gaps.length then "web_search"
  else "evaluate"

/-- `should_continue_research` (`workflow.py` lines 81-97). -/
def shouldContinueResearch (s : RState) : String :=
  if s.max_iterations ≤ s.current_iteration then "finalize"
  else if s.quality_threshold ≤ s.quality_score then "finalize"
  else if s.research_gaps.length = 0 ∧ 0.7 < s.quality_score then "finalize"
  else "analyze_gaps"

/-- The termination rules exactly as the spec words them (section 4.6
`TerminationPolicy`): an ordered rule list, each rule a guard plus verdict. -/
def terminationRules (s : RState) : List (Bool × String) :=
  [(decide (s.max_iterations ≤ s.current_iteration), "finalize"),
   (decide (s.quality_threshold ≤ s.quality_score), "finalize"),
   (decide (s.research_gaps.length = 0 ∧ 0.7 < s.quality_score), "finalize")]

/-- First rule whose guard holds, with a default verdict. -/
def firstRuleVerdict : List (Bool × String) → String → String
  | [], d => d
  | (b, r) :: t, d => if b then r else firstRuleVerdict t d

/-- Termination policy as specified: the verdict of the first rule whose
condition holds, defaulting to continue (`"analyze_gaps"`). -/
def terminationPolicySpec (s : RState) : String :=
  firstRuleVerdict (terminationRules s) "analyze_gaps"

/-! Remaining simple node state updates.  The oracle strings stand for the
(already `clean_reasoning_tags`-cleaned) client responses. -/

/-- Pattern list membership used by `ClarificationNode.process` for the
`"NEEDS_CLARIFICATION: YES" in clarification_text` test. -/
def listHasPre [BEq α] : List α → List α → Bool
  | [], _ => true
  | _ :: _, [] => false
  | a :: as, b :: bs => a == b && listHasPre as bs

def listHasSub [BEq α] : List α → List α → Bool
  | pat, [] => pat.isEmpty
  | pat, b :: bs => listHasPre pat (b :: bs) || listHasSub pat bs

/-- `ClarificationNode.process` state update (question extraction omitted,
see the module comment). -/
def clarifyProcess (resp : String) (s : RState) : RState :=
  { s with clarification_needed :=
             listHasSub "NEEDS_CLARIFICATION: YES".data resp.data
           query_analysis := resp }

/-- `PlanningNode.process` state update. -/
def planProcess (resp : String) (s : RState) : RState :=
  { s with research_plan := resp }

/-- `DraftGenerationNode.process` state update: stores the draft and sets
`current_iteration = 1`. -/
def draftProcess (resp : String) (s : RState) : RState :=
  { s with current_draft := resp, current_iteration := 1 }

/-- `FinalReportNode.process` state update: stores the final report and sets
`research_complete = True`. -/
def finalProcess (resp : String) (s : RState) : RState :=
  { s with final_report := resp, research_complete := true }

/-- Graph nodes of `create_ttd_workflow` plus the LangGraph `END` vertex. -/
inductive WNode
  | clarify | plan | generateDraft | analyzeGaps | webSearch
  | enhance | evaluate | finalizeRep | ended
deriving DecidableEq

/-- Environment of one run: all external inputs, indexed by how many times
the consuming node has already run. -/
structure Oracles where
  /-- model of Python `float(...)` string conversion -/
  pf : String → Option ℚ
  clarifyResp : String
  planResp : String
  draftResp : String
  /-- raw gap-analysis response text of pass `n` -/
  gapResp : Nat → String
  /-- result of `parse_gap_analysis` on pass `n` (`none` = raised) -/
  gapParse : Nat → Option (List ResearchGap)
  /-- fallback-gap uuid token of pass `n` -/
  gapFid : Nat → String
  /-- per search pass `n` and gap index `i`: the `search_tool.search` result -/
  searchRes : Nat → Nat → Option (List SourceRec)
  /-- cleaned enhancement response of pass `n` -/
  enhanceResp : Nat → String
  /-- quality evaluation response of pass `n` -/
  qualResp : Nat → String
  finalResp : String

/-- One in-flight run: current graph node, state, and per-node visit
counters (used to index the oracles). -/
structure Machine where
  node : WNode
  s : RState
  cGap : Nat
  cSearch : Nat
  cEnh : Nat
  cEval : Nat
deriving DecidableEq

/-- One transition of the workflow graph of `create_ttd_workflow`
(`workflow.py` lines 43-109): process the current node, then follow the
(possibly conditional) edge. -/
def step (o : Oracles) (m : Machine) : Machine :=
  match m.node with
  | .clarify => { m with node := .plan, s := clarifyProcess o.clarifyResp m.s }
  | .plan => { m with node := .generateDraft, s := planProcess o.planResp m.s }
  | .generateDraft =>
      { m with node := .analyzeGaps, s := draftProcess o.draftResp m.s }
  | .analyzeGaps =>
      let s' := gapProcess (o.gapParse m.cGap) (o.gapResp m.cGap)
        (o.gapFid m.cGap) m.s
      { m with s := s', cGap := m.cGap + 1
               node := if shouldSearchGaps s' = "web_search" then .webSearch
                       else .evaluate }
  | .webSearch =>
      { m with node := .enhance
               s := webSearchProcess (o.searchRes m.cSearch) m.s
               cSearch := m.cSearch + 1 }
  | .enhance =>
      { m with node := .evaluate
               s := enhancementProcess (o.enhanceResp m.cEnh) m.s
               cEnh := m.cEnh + 1 }
  | .evaluate =>
      let s' := qualityProcess o.pf (o.qualResp m.cEval) m.s
      { m with s := s', cEval := m.cEval + 1
               node := if shouldContinueResearch s' = "finalize" then .finalizeRep
                       else .analyzeGaps }
  | .finalizeRep =>
      { m with node := .ended, s := finalProcess o.finalResp m.s }
  | .ended => m

/-- Machine at the workflow entry point (`set_entry_point("clarify")`). -/
def initMachine (query research_context : String) (max_iterations : Nat)
    (quality_threshold : ℚ) : Machine :=
  { node := .clarify
    s := createInitialState query research_context max_iterations
      quality_threshold
    cGap := 0, cSearch := 0, cEnh := 0, cEval := 0 }

/-- Run the workflow for `n` transitions. -/
def run (o : Oracles) (m : Machine) : Nat → Machine
  | 0 => m
  | n + 1 => step o (run o m n)

/-- Simple concrete decimal-literal instance of the `float(...)` parameter,
used by witnesses and counterexamples: optional sign, digits, optional
single decimal point (the restriction of Python's `float` grammar to the
inputs those theorems use). -/
def decimalDigitsVal (cs : List Char) : ℚ :=
  cs.foldl (fun a c => a * 10 + ((c.toNat - 48 : Nat) : ℚ)) 0

def parseDecimal (str : String) : Option ℚ :=
  let cs := str.data
  let sgn : ℚ := if cs.head? = some '-' then -1 else 1
  let cs := if cs.head? = some '-' ∨ cs.head? = some '+' then cs.tail else cs
  if cs = [] then none
  else if ¬ (cs.all (fun c => c.isDigit ∨ c = '.')) then none
  else
    match cs.splitOn '.' with
    | [intPart] => some (sgn * decimalDigitsVal intPart)
    | [intPart, fracPart] =>
        if intPart = [] ∧ fracPart = [] then none
        else some (sgn * (decimalDigitsVal intPart +
          decimalDigitsVal fracPart / (10 : ℚ) ^ fracPart.length))
    | _ => none

/-! Concrete fixtures used by witnesses and counterexamples. -/

/-- A concrete search record (shape as produced by `_search_tavily`). -/
def srDemo : SourceRec :=
  { id := "s1", title := "T", url := "u", content := "c", raw_content := "rc"
    published_date := "", source := "tavily", score := 0.5 }

/-- A concrete state that has just entered the Enhance step with one pending
search result. -/
def sEnh : RState :=
  { createInitialState "q" with search_results := [srDemo]
                                current_iteration := 1 }

/-- A concrete state whose `sources` already contain `srDemo`'s URL. -/
def sSrc : RState := { createInitialState "q" with sources := [srDemo] }

theorem str_append_empty (s : String) : s ++ "" = s := by
  cases s with
  | mk d => show String.mk (d ++ []) = String.mk d
            rw [List.append_nil]

/-! Claim theorems. -/

/-- C2 (confirmed): the decision function evaluated at `Evaluate` equals the
first-matching-rule semantics of the spec's ordered rule list — (1) iteration
bound, (2) quality threshold, (3) no gaps and quality above `0.7` — each
verdict `Finalize`, defaulting to continue to `AnalyzeGaps`. -/
theorem C2_decision_rules (s : RState) :
    shouldContinueResearch s = terminationPolicySpec s := by
  simp only [shouldContinueResearch, terminationPolicySpec, terminationRules,
    firstRuleVerdict]
  by_cases h1 : s.max_iterations ≤ s.current_iteration <;>
    by_cases h2 : s.quality_threshold ≤ s.quality_score <;>
      by_cases h3 : s.research_gaps.length = 0 ∧ 0.7 < s.quality_score <;>
        simp [h1, h2, h3]

/-- C10 (confirmed): when `search_results` is empty, the Enhance step is the
identity on the state (no iteration increment, no draft history push, no
source accumulation); the result does not depend on the generated response,
so no text-generation output is used. -/
theorem C10_enhance_skip (resp : String) (s : RState)
    (h : s.search_results = []) : enhancementProcess resp s = s := by
  simp [enhancementProcess, h]

theorem C10_enhance_skip_witness :
    (createInitialState "q").search_results = [] ∧
    enhancementProcess "resp" (createInitialState "q") = createInitialState "q" :=
  ⟨rfl, C10_enhance_skip "resp" (createInitialState "q") rfl⟩

/-- C6 (corrected): for every state entering Enhance **whose
`search_results` is non-empty**, the step increments `current_iteration` by
exactly one, appends the prior draft to `previous_drafts` before overwriting
the draft, and extends `sources`; and across every Enhance step (including
the empty-results skip) `current_iteration` is monotonically
non-decreasing.  The unconditional form of the claim is refuted by
`C6_counterexample`. -/
theorem C6_enhance_effects :
    (∀ resp s, s.search_results ≠ [] →
      (enhancementProcess resp s).current_iteration = s.current_iteration + 1 ∧
      (enhancementProcess resp s).previous_drafts
        = s.previous_drafts ++ [s.current_draft] ∧
      (enhancementProcess resp s).current_draft = resp ∧
      (enhancementProcess resp s).sources = s.sources ++ s.search_results) ∧
    (∀ resp s, s.current_iteration
        ≤ (enhancementProcess resp s).current_iteration) := by
  constructor
  · intro resp s h
    simp [enhancementProcess, h]
  · intro resp s
    by_cases h : s.search_results = [] <;> simp [enhancementProcess, h]

theorem C6_enhance_effects_witness :
    (enhancementProcess "r" sEnh).current_iteration
      = sEnh.current_iteration + 1 :=
  (C6_enhance_effects.1 "r" sEnh (by decide)).1

/-- C6 counterexample: a state entering Enhance with empty `search_results`
(reachable whenever every per-gap search fails) is returned unchanged, so
the step does not increment the iteration and does not append to
`previous_drafts`. -/
theorem C6_counterexample :
    ¬ ((enhancementProcess "r"
          ({ createInitialState "q" with current_iteration := 1 })).current_iteration
        = ({ createInitialState "q" with
              current_iteration := 1 } : RState).current_iteration + 1) := by
  decide

/-- C4 (confirmed): whenever `parse_gap_analysis` raises (`parsed = none`)
or matches zero entries (`parsed = some []`), the gap-analysis step stores
exactly one fallback gap with section `"general"`, type
`"missing_information"`, priority `"medium"`, and search query
`"comprehensive research " ++ query` — which therefore contains the original
query string. -/
theorem C4_fallback_gap (parsed : Option (List ResearchGap)) (resp fid : String)
    (s : RState) (h : parsed = none ∨ parsed = some []) :
    ∃ g, (gapProcess parsed resp fid s).research_gaps = [g] ∧
      g.sectionLabel = "general" ∧ g.gap_type = "missing_information" ∧
      g.priority = "medium" ∧
      g.search_query = "comprehensive research " ++ s.query ∧
      ∃ a b, g.search_query = a ++ s.query ++ b := by
  rcases h with h | h <;> subst h <;>
    exact ⟨_, rfl, rfl, rfl, rfl, rfl, "comprehensive research ", "",
      (str_append_empty _).symm⟩

theorem C4_fallback_gap_witness :
    ∃ g, (gapProcess (some []) "t" "abc12345"
        (createInitialState "q")).research_gaps = [g] ∧
      g.sectionLabel = "general" ∧ g.gap_type = "missing_information" ∧
      g.priority = "medium" ∧
      g.search_query = "comprehensive research " ++ (createInitialState "q").query ∧
      ∃ a b, g.search_query = a ++ (createInitialState "q").query ++ b :=
  C4_fallback_gap (some []) "t" "abc12345" (createInitialState "q") (Or.inr rfl)

/-- C3 (corrected): the dedup helper `update_state_with_source_metadata`
does leave `sources` (and hence its length) unchanged when every inserted
URL is already present; but the workflow's Enhance step extends `sources`
with **all** search results without deduplication (the helper is never
called by any node), so reachable states can hold duplicate URLs — see
`C3_counterexample`. -/
theorem C3_dedup_helper (s : RState) (newSources : List SourceRec)
    (h : ∀ r ∈ newSources, r.url ∈ s.sources.map (·.url)) :
    (updateStateWithSourceMetadata s newSources).sources = s.sources ∧
    (updateStateWithSourceMetadata s newSources).sources.length
      = s.sources.length := by
  have hf : newSources.filter
      (fun r => !((s.sources.map (·.url)).contains r.url)) = [] := by
    rw [List.filter_eq_nil_iff]
    intro r hr
    simp only [Bool.not_eq_true', Bool.not_eq_false]
    exact List.elem_eq_true_of_mem (h r hr)
  have hs : (updateStateWithSourceMetadata s newSources).sources = s.sources := by
    simp only [updateStateWithSourceMetadata]
    rw [hf, List.append_nil]
  exact ⟨hs, by rw [hs]⟩

theorem C3_dedup_helper_witness :
    (updateStateWithSourceMetadata sSrc [srDemo]).sources = sSrc.sources :=
  (C3_dedup_helper sSrc [srDemo] (by decide)).1

/-- Oracles for the duplicate-URL counterexample run: two gaps whose
searches both return the same URL `"u"`. -/
def gapA : ResearchGap :=
  { id := "g1", sectionLabel := "s1", gap_type := "t", specific_need := "n"
    search_query := "qa", priority := "high", status := "pending" }

def gapB : ResearchGap :=
  { id := "g2", sectionLabel := "s2", gap_type := "t", specific_need := "n"
    search_query := "qb", priority := "low", status := "pending" }

def oDup : Oracles :=
  { pf := parseDecimal, clarifyResp := "", planResp := "", draftResp := "d"
    gapResp := fun _ => "", gapParse := fun _ => some [gapA, gapB]
    gapFid := fun _ => "f", searchRes := fun _ _ => some [srDemo]
    enhanceResp := fun _ => "e", qualResp := fun _ => "OVERALL_QUALITY: 0.4"
    finalResp := "fr" }

/-- C3 counterexample: after six workflow transitions (Clarify, Plan, Draft,
AnalyzeGaps, Search, Enhance) with two gaps whose searches return the same
URL, the reachable state's `sources` contain that URL twice. -/
theorem C3_counterexample :
    ¬ (((run oDup (initMachine "q" "" 3 0.85) 6).s.sources.map (·.url)).Nodup) := by
  with_unfolding_all decide

/-! Stable-sort lemmas for the retriever merge. -/

theorem insertByScoreDesc_perm (x : SourceRec) (l : List SourceRec) :
    List.Perm (insertByScoreDesc x l) (x :: l) := by
  induction l with
  | nil => exact List.Perm.refl _
  | cons y t ih =>
    by_cases h : y.score ≤ x.score
    · simp [insertByScoreDesc, h]
    · simp only [insertByScoreDesc, if_neg h]
      exact (ih.cons y).trans (List.Perm.swap x y t)

theorem sortByScoreDesc_perm (l : List SourceRec) : List.Perm (sortByScoreDesc l) l := by
  induction l with
  | nil => exact List.Perm.refl _
  | cons x t ih =>
    have : sortByScoreDesc (x :: t) = insertByScoreDesc x (sortByScoreDesc t) := rfl
    rw [this]
    exact (insertByScoreDesc_perm x (sortByScoreDesc t)).trans (ih.cons x)

theorem sorted_insertByScoreDesc (x : SourceRec) (l : List SourceRec)
    (h : List.Sorted (fun a b => b.score ≤ a.score) l) :
    List.Sorted (fun a b => b.score ≤ a.score) (insertByScoreDesc x l) := by
  induction l with
  | nil => simp [insertByScoreDesc]
  | cons y t ih =>
    rw [List.sorted_cons] at h
    by_cases hxy : y.score ≤ x.score
    · simp only [insertByScoreDesc, if_pos hxy]
      rw [List.sorted_cons]
      refine ⟨?_, List.sorted_cons.mpr h⟩
      intro b hb
      rcases List.mem_cons.mp hb with hb | hb
      · rw [hb]; exact hxy
      · exact le_trans (h.1 b hb) hxy
    · simp only [insertByScoreDesc, if_neg hxy]
      rw [List.sorted_cons]
      refine ⟨?_, ih h.2⟩
      intro b hb
      rcases List.mem_cons.mp
          ((insertByScoreDesc_perm x t).mem_iff.mp hb) with hb | hb
      · rw [hb]; exact le_of_lt (lt_of_not_le hxy)
      · exact h.1 b hb

theorem sorted_sortByScoreDesc (l : List SourceRec) :
    List.Sorted (fun a b => b.score ≤ a.score) (sortByScoreDesc l) := by
  induction l with
  | nil => simp [sortByScoreDesc]
  | cons x t ih => exact sorted_insertByScoreDesc x (sortByScoreDesc t) ih

/-- C5 (corrected): merging two successful provider result lists of 5 items
each yields **all 10** records — the merge performs no URL deduplication —
as a permutation of the concatenation, sorted descending by `score`, within
the cap `max_results * |engines| = 10`.  The claimed 8-record
URL-deduplicated output is refuted by `C5_counterexample`. -/
theorem C5_merge_sorted (r1 r2 : List SourceRec) (h1 : r1.length = 5)
    (h2 : r2.length = 5) :
    (webSearchToolMerge [some r1, some r2] 5).length = 10 ∧
    List.Perm (webSearchToolMerge [some r1, some r2] 5) (r1 ++ r2) ∧
    List.Sorted (fun a b => b.score ≤ a.score)
      (webSearchToolMerge [some r1, some r2] 5) := by
  have hall : (([some r1, some r2].filterMap id).flatten : List SourceRec)
      = r1 ++ r2 := by simp
  have hperm : List.Perm (sortByScoreDesc (r1 ++ r2)) (r1 ++ r2) := sortByScoreDesc_perm _
  have hlen : (sortByScoreDesc (r1 ++ r2)).length = 10 := by
    rw [hperm.length_eq, List.length_append, h1, h2]
  have hcap : webSearchToolMerge [some r1, some r2] 5
      = sortByScoreDesc (r1 ++ r2) := by
    simp only [webSearchToolMerge, hall]
    exact List.take_of_length_le (le_of_eq hlen)
  refine ⟨?_, ?_, ?_⟩
  · rw [hcap]; exact hlen
  · rw [hcap]; exact hperm
  · rw [hcap]; exact sorted_sortByScoreDesc _

def mkSR (i u : String) (sc : ℚ) : SourceRec :=
  { id := i, title := "t", url := u, content := "", raw_content := ""
    published_date := "", source := "tavily", score := sc }

/-- Five results from provider one (URLs `u1`..`u5`). -/
def l1demo : List SourceRec :=
  [mkSR "a1" "u1" 0.9, mkSR "a2" "u2" 0.8, mkSR "a3" "u3" 0.7,
   mkSR "a4" "u4" 0.6, mkSR "a5" "u5" 0.5]

/-- Five results from provider two; URLs `u4` and `u5` overlap with
provider one. -/
def l2demo : List SourceRec :=
  [mkSR "b1" "u4" 0.95, mkSR "b2" "u5" 0.85, mkSR "b3" "u6" 0.75,
   mkSR "b4" "u7" 0.65, mkSR "b5" "u8" 0.55]

theorem C5_merge_sorted_witness :
    (webSearchToolMerge [some l1demo, some l2demo] 5).length = 10 ∧
    List.Perm (webSearchToolMerge [some l1demo, some l2demo] 5) (l1demo ++ l2demo) ∧
    List.Sorted (fun a b => b.score ≤ a.score)
      (webSearchToolMerge [some l1demo, some l2demo] 5) :=
  C5_merge_sorted l1demo l2demo rfl rfl

/-- C5 counterexample: two provider lists of 5 items each with exactly 2
overlapping URLs merge to 10 records, not 8, and the merged list still
contains duplicate URLs. -/
theorem C5_counterexample :
    ¬ ((webSearchToolMerge [some l1demo, some l2demo] 5).length = 8) ∧
    (webSearchToolMerge [some l1demo, some l2demo] 5).length = 10 ∧
    ¬ (((webSearchToolMerge [some l1demo, some l2demo] 5).map (·.url)).Nodup) := by
  with_unfolding_all decide

/-! Quality-score parser lemmas (C7, C8). -/

theorem mem_dictInsert (d : List (String × ℚ)) (k : String) (v : ℚ)
    (kv : String × ℚ) (h : kv ∈ dictInsert d k v) : kv ∈ d ∨ kv = (k, v) := by
  unfold dictInsert at h
  split at h
  · rcases List.mem_map.mp h with ⟨kv', hkv', heq⟩
    by_cases hk : kv'.1 == k
    · right; rw [← heq]; simp [hk]
    · left
      rw [← heq]
      simp only [hk, Bool.false_eq_true, if_false]
      exact hkv'
  · rcases List.mem_append.mp h with h | h
    · left; exact h
    · right; simpa using h

theorem parseScoreLine_values (pf : String → Option ℚ)
    (acc : List (String × ℚ)) (line : String)
    (h : ∀ kv ∈ acc, kv.2 = 0.5 ∨ ∃ str, pf str = some kv.2) :
    ∀ kv ∈ parseScoreLine pf acc line,
      kv.2 = 0.5 ∨ ∃ str, pf str = some kv.2 := by
  intro kv hkv
  unfold parseScoreLine at hkv
  split at hkv
  · split at hkv
    · exact h kv hkv
    · rename_i k rest
      split at hkv
      · rename_i v hpf
        rcases mem_dictInsert _ _ _ _ hkv with hm | hm
        · exact h kv hm
        · right
          rw [hm]
          exact ⟨_, hpf⟩
      · rcases mem_dictInsert _ _ _ _ hkv with hm | hm
        · exact h kv hm
        · left; rw [hm]
  · exact h kv hkv

theorem parseQualityScores_values (pf : String → Option ℚ) (response : String) :
    ∀ kv ∈ parseQualityScores pf response,
      kv.2 = 0.5 ∨ ∃ str, pf str = some kv.2 := by
  unfold parseQualityScores
  have key : ∀ (lines : List String) (acc : List (String × ℚ)),
      (∀ kv ∈ acc, kv.2 = 0.5 ∨ ∃ str, pf str = some kv.2) →
      ∀ kv ∈ lines.foldl (parseScoreLine pf) acc,
        kv.2 = 0.5 ∨ ∃ str, pf str = some kv.2 := by
    intro lines
    induction lines with
    | nil => intro acc h; simpa using h
    | cons l t ih =>
      intro acc h
      exact ih _ (parseScoreLine_values pf acc l h)
  exact key _ [] (by simp)

theorem parseScoreLine_nocolon (pf : String → Option ℚ)
    (acc : List (String × ℚ)) (line : String)
    (h : line.trim.contains ':' = false) :
    parseScoreLine pf acc line = acc := by
  unfold parseScoreLine
  simp [h]

theorem parseQualityScores_nocolon (pf : String → Option ℚ) (response : String)
    (h : ∀ line ∈ response.splitOn "\n", line.trim.contains ':' = false) :
    parseQualityScores pf response = [] := by
  unfold parseQualityScores
  have key : ∀ (lines : List String),
      (∀ line ∈ lines, line.trim.contains ':' = false) →
      ∀ acc : List (String × ℚ), lines.foldl (parseScoreLine pf) acc = acc := by
    intro lines
    induction lines with
    | nil => intro _ acc; rfl
    | cons l t ih =>
      intro hl acc
      have h1 : parseScoreLine pf acc l = acc :=
        parseScoreLine_nocolon pf acc l (hl l (List.mem_cons_self l t))
      have h2 := ih (fun x hx => hl x (List.mem_cons_of_mem l hx)) acc
      simpa [h1] using h2
  exact key _ h []

/-- C7 (corrected): the quality-score parser is total (never raises) and
every value it stores is either the `0.5` default (the `ValueError` branch)
or an output of the float conversion; when no line contains a colon the
returned mapping is empty — so recognized labels missing from the text are
**absent**, not defaulted, and (per `C7_counterexample`) unrecognized labels
are stored rather than ignored.  The overall score used by the Evaluate step
is the `OVERALL_QUALITY` entry when present and `0.5` otherwise. -/
theorem C7_quality_parse (pf : String → Option ℚ) :
    (∀ resp, ∀ kv ∈ parseQualityScores pf resp,
        kv.2 = 0.5 ∨ ∃ str, pf str = some kv.2) ∧
    (∀ resp, (∀ line ∈ resp.splitOn "\n", line.trim.contains ':' = false) →
        parseQualityScores pf resp = []) ∧
    (∀ resp s, dictGet (parseQualityScores pf resp) "OVERALL_QUALITY" = none →
        (qualityProcess pf resp s).quality_score = 0.5) ∧
    (∀ resp s v, dictGet (parseQualityScores pf resp) "OVERALL_QUALITY" = some v →
        (qualityProcess pf resp s).quality_score = v) := by
  refine ⟨parseQualityScores_values pf, parseQualityScores_nocolon pf, ?_, ?_⟩
  · intro resp s h
    have hq : (qualityProcess pf resp s).quality_score
        = (dictGet (parseQualityScores pf resp) "OVERALL_QUALITY").getD 0.5 := rfl
    rw [hq, h]
    rfl
  · intro resp s v h
    have hq : (qualityProcess pf resp s).quality_score
        = (dictGet (parseQualityScores pf resp) "OVERALL_QUALITY").getD 0.5 := rfl
    rw [hq, h]
    rfl

theorem C7_quality_parse_witness :
    parseQualityScores parseDecimal "no colons here" = [] :=
  (C7_quality_parse parseDecimal).2.1 "no colons here"
    (by with_unfolding_all decide)

/-- C7 counterexample: the unrecognized label `FOO` is stored in the
returned mapping (not ignored), while the recognized label
`COMPREHENSIVENESS` is absent from it (the mapping is not a complete,
defaulted `QualityMetrics`). -/
theorem C7_counterexample :
    parseQualityScores parseDecimal "FOO: 0.9" = [("FOO", 0.9)] ∧
    dictGet (parseQualityScores parseDecimal "FOO: 0.9") "COMPREHENSIVENESS"
      = none := by
  with_unfolding_all decide

/-- C8 (corrected): the Evaluate step performs **no clamping**: the stored
overall score equals the parsed `OVERALL_QUALITY` value (default `0.5`), so
it lies in `[0,1]` exactly when the parse result does — which
`C8_counterexample` shows can fail. -/
theorem C8_overall_range (pf : String → Option ℚ) (resp : String) (s : RState)
    (h : ∀ v, dictGet (parseQualityScores pf resp) "OVERALL_QUALITY" = some v →
        0 ≤ v ∧ v ≤ 1) :
    0 ≤ (qualityProcess pf resp s).quality_score ∧
    (qualityProcess pf resp s).quality_score ≤ 1 := by
  have hq : (qualityProcess pf resp s).quality_score
      = (dictGet (parseQualityScores pf resp) "OVERALL_QUALITY").getD 0.5 := rfl
  rw [hq]
  cases hv : dictGet (parseQualityScores pf resp) "OVERALL_QUALITY" with
  | none => norm_num
  | some v => simpa using h v hv

theorem C8_overall_range_witness :
    0 ≤ (qualityProcess parseDecimal "OVERALL_QUALITY: 0.9"
          (createInitialState "q")).quality_score ∧
    (qualityProcess parseDecimal "OVERALL_QUALITY: 0.9"
          (createInitialState "q")).quality_score ≤ 1 := by
  refine C8_overall_range parseDecimal "OVERALL_QUALITY: 0.9"
    (createInitialState "q") ?_
  intro v hv
  rw [show dictGet (parseQualityScores parseDecimal "OVERALL_QUALITY: 0.9")
      "OVERALL_QUALITY" = some ((9 : ℚ)/10) from by with_unfolding_all rfl] at hv
  injection hv with hv
  rw [← hv]
  norm_num

/-- C8 counterexample: evaluator text `OVERALL_QUALITY: 1.5` leaves
`quality_score = 3/2 > 1` in the state after the Evaluate step — nothing
clamps it to `[0,1]`. -/
theorem C8_counterexample :
    (qualityProcess parseDecimal "OVERALL_QUALITY: 1.5"
        (createInitialState "q")).quality_score = 3/2 ∧
    ¬ ((qualityProcess parseDecimal "OVERALL_QUALITY: 1.5"
        (createInitialState "q")).quality_score ≤ 1) := by
  with_unfolding_all decide

/-- C9 (corrected): the fitness estimator satisfies the four claimed
formulas for **every** input (the untouched-base branches coincide with the
formulas at empty inputs), and `search_strategy` / `gap_identification` are
clamped into `[0,1]`; but the three quality-derived scores are **not**
clamped — they lie in `[0,1]` only under the extra hypothesis that every
parsed quality value does (refuted unconditionally by
`C9_counterexample`). -/
theorem C9_fitness_formulas (sr : List SourceRec) (ga : List String)
    (qs : List (String × ℚ)) :
    (calculateComponentFitness sr ga qs).search_strategy
      = min 1 (0.8 + (sr.length : ℚ) * 0.05) ∧
    (calculateComponentFitness sr ga qs).gap_identification
      = min 1 (0.8 + (ga.length : ℚ) * 0.1) ∧
    (calculateComponentFitness sr ga qs).synthesis_quality
      = (dictGet qs "overall_quality").getD 0.7 ∧
    (calculateComponentFitness sr ga qs).enhancement_effectiveness
      = (calculateComponentFitness sr ga qs).synthesis_quality ∧
    (calculateComponentFitness sr ga qs).integration_ability
      = (dictGet qs "structure").getD 0.7 * 0.4
        + (dictGet qs "accuracy").getD 0.7 * 0.6 ∧
    (0 ≤ (calculateComponentFitness sr ga qs).search_strategy ∧
      (calculateComponentFitness sr ga qs).search_strategy ≤ 1) ∧
    (0 ≤ (calculateComponentFitness sr ga qs).gap_identification ∧
      (calculateComponentFitness sr ga qs).gap_identification ≤ 1) ∧
    ((∀ k v, dictGet qs k = some v → 0 ≤ v ∧ v ≤ 1) →
      0 ≤ (calculateComponentFitness sr ga qs).synthesis_quality ∧
      (calculateComponentFitness sr ga qs).synthesis_quality ≤ 1 ∧
      0 ≤ (calculateComponentFitness sr ga qs).integration_ability ∧
      (calculateComponentFitness sr ga qs).integration_ability ≤ 1 ∧
      0 ≤ (calculateComponentFitness sr ga qs).enhancement_effectiveness ∧
      (calculateComponentFitness sr ga qs).enhancement_effectiveness ≤ 1) := by
  have hkey : calculateComponentFitness sr ga qs =
      { search_strategy := min 1 (0.8 + (sr.length : ℚ) * 0.05)
        synthesis_quality := (dictGet qs "overall_quality").getD 0.7
        integration_ability := (dictGet qs "structure").getD 0.7 * 0.4
          + (dictGet qs "accuracy").getD 0.7 * 0.6
        gap_identification := min 1 (0.8 + (ga.length : ℚ) * 0.1)
        enhancement_effectiveness := (dictGet qs "overall_quality").getD 0.7 } := by
    unfold calculateComponentFitness
    by_cases hs : sr = [] <;> by_cases hg : ga = [] <;> by_cases hq : qs = [] <;>
      simp [hs, hg, hq, dictGet, ComponentFitness.mk.injEq] <;>
        norm_num [min_def]
  have hov : ∀ h : (∀ k v, dictGet qs k = some v → 0 ≤ v ∧ v ≤ 1),
      ∀ key : String, 0 ≤ (dictGet qs key).getD 0.7 ∧
        (dictGet qs key).getD 0.7 ≤ 1 := by
    intro h key
    cases hv : dictGet qs key with
    | none => norm_num
    | some v => simpa using h key v hv
  rw [hkey]
  refine ⟨rfl, rfl, rfl, rfl, rfl, ⟨?_, min_le_left _ _⟩,
    ⟨?_, min_le_left _ _⟩, ?_⟩
  · exact le_min (by norm_num) (by positivity)
  · exact le_min (by norm_num) (by positivity)
  · intro h
    obtain ⟨ho1, ho2⟩ := hov h "overall_quality"
    obtain ⟨hs1, hs2⟩ := hov h "structure"
    obtain ⟨ha1, ha2⟩ := hov h "accuracy"
    refine ⟨ho1, ho2, by nlinarith, by nlinarith, ho1, ho2⟩

theorem C9_fitness_formulas_witness :
    0 ≤ (calculateComponentFitness [] [] [("overall_quality", (1:ℚ)/2)]).synthesis_quality ∧
    (calculateComponentFitness [] [] [("overall_quality", (1:ℚ)/2)]).synthesis_quality ≤ 1 ∧
    0 ≤ (calculateComponentFitness [] [] [("overall_quality", (1:ℚ)/2)]).integration_ability ∧
    (calculateComponentFitness [] [] [("overall_quality", (1:ℚ)/2)]).integration_ability ≤ 1 ∧
    0 ≤ (calculateComponentFitness [] [] [("overall_quality", (1:ℚ)/2)]).enhancement_effectiveness ∧
    (calculateComponentFitness [] [] [("overall_quality", (1:ℚ)/2)]).enhancement_effectiveness ≤ 1 :=
  (C9_fitness_formulas [] [] [("overall_quality", (1:ℚ)/2)]).2.2.2.2.2.2.2
    (by
      intro k v h
      by_cases hk : (("overall_quality" : String) == k)
      · simp [dictGet, List.find?, hk] at h
        rw [← h]
        norm_num
      · simp [dictGet, List.find?, hk] at h)

/-- C9 counterexample: with quality input `overall_quality = 3/2` the
returned `synthesis_quality` is `3/2`, outside `[0,1]` — the five returned
values are not all clamped. -/
theorem C9_counterexample :
    (calculateComponentFitness [] [] [("overall_quality", 3/2)]).synthesis_quality
      = 3/2 ∧
    ¬ ((calculateComponentFitness [] [] [("overall_quality", 3/2)]).synthesis_quality
      ≤ 1) := by
  with_unfolding_all decide

/-! Bounded-termination analysis (C1). -/

/-- Gap lists over which the Search step is guaranteed to collect results:
non-empty, every entry with a truthy search query. -/
def GapsOK (gs : List ResearchGap) : Prop :=
  gs ≠ [] ∧ ∀ g ∈ gs, g.search_query ≠ ""

theorem fallback_query_ne_empty (q : String) :
    "comprehensive research " ++ q ≠ "" := by
  intro h
  have hd : ("comprehensive research ".data ++ q.data : List Char) = [] :=
    congrArg String.data h
  simp at hd

theorem gapsOK_gapAnalyzerGaps (parsed : Option (List ResearchGap))
    (q fid : String)
    (hp : ∀ gs, parsed = some gs → ∀ g ∈ gs, g.search_query ≠ "") :
    GapsOK (gapAnalyzerGaps parsed q fid) := by
  cases parsed with
  | none =>
    refine ⟨by simp [gapAnalyzerGaps, createFallbackGap], ?_⟩
    intro g hg
    simp only [gapAnalyzerGaps, createFallbackGap, List.mem_singleton] at hg
    rw [hg]
    exact fallback_query_ne_empty q
  | some gs =>
    cases gs with
    | nil =>
      refine ⟨by simp [gapAnalyzerGaps, createFallbackGap], ?_⟩
      intro g hg
      simp only [gapAnalyzerGaps, createFallbackGap, List.mem_singleton] at hg
      rw [hg]
      exact fallback_query_ne_empty q
    | cons g t => exact ⟨by simp [gapAnalyzerGaps], hp _ rfl⟩

theorem webSearchCollect_ne_nil (res : Nat → Option (List SourceRec))
    (gaps : List ResearchGap) (hg : GapsOK gaps)
    (hr : ∀ i, ∃ rs, res i = some rs ∧ rs ≠ []) :
    webSearchCollect res gaps ≠ [] := by
  obtain ⟨hne, hq⟩ := hg
  cases gaps with
  | nil => exact absurd rfl hne
  | cons g t =>
    obtain ⟨rs, hrs, hrsne⟩ := hr 0
    unfold webSearchCollect
    intro hcol
    rw [List.flatten_eq_nil_iff] at hcol
    have hhead := hcol _ (List.mem_map.mpr ⟨(0, g), by simp [List.enum_cons], rfl⟩)
    rw [if_neg (hq g (List.mem_cons_self g t))] at hhead
    rw [hrs] at hhead
    exact hrsne (List.map_eq_nil_iff.mp hhead)

/-- Worst-case number of Evaluate visits before the iteration-bound rule
fires: `max 1 (N - 1)`. -/
def mBound (N : Nat) : Nat := max 1 (N - 1)

theorem one_le_mBound (N : Nat) : 1 ≤ mBound N := le_max_left _ _

theorem sub_le_mBound (N : Nat) : N - 1 ≤ mBound N := le_max_right _ _

theorem mBound_le (N : Nat) (hN : 1 ≤ N) : mBound N ≤ N :=
  max_le hN (Nat.sub_le N 1)

theorem scr_finalize_of_bound (s : RState)
    (h : s.max_iterations ≤ s.current_iteration) :
    shouldContinueResearch s = "finalize" := by
  unfold shouldContinueResearch
  rw [if_pos h]

theorem scr_lt_of_ne (s : RState) (h : shouldContinueResearch s ≠ "finalize") :
    s.current_iteration < s.max_iterations := by
  by_contra hc
  exact h (scr_finalize_of_bound s (le_of_not_lt hc))

/-- Run invariant: position of the machine in the graph determines the step
index modulo the cycle length, the relation between `current_iteration` and
the number of completed Evaluate visits, and the iteration bound. -/
def Inv (N k : Nat) (m : Machine) : Prop :=
  match m.node with
  | .clarify => k = 0 ∧ m.s.current_iteration = 0 ∧ m.cEval = 0 ∧
      m.s.max_iterations = N
  | .plan => k = 1 ∧ m.s.current_iteration = 0 ∧ m.cEval = 0 ∧
      m.s.max_iterations = N
  | .generateDraft => k = 2 ∧ m.s.current_iteration = 0 ∧ m.cEval = 0 ∧
      m.s.max_iterations = N
  | .analyzeGaps => k = 4 * m.cEval + 3 ∧
      m.s.current_iteration = m.cEval + 1 ∧
      (m.cEval = 0 ∨ m.s.current_iteration < N) ∧ m.s.max_iterations = N
  | .webSearch => k = 4 * m.cEval + 4 ∧
      m.s.current_iteration = m.cEval + 1 ∧
      (m.cEval = 0 ∨ m.s.current_iteration < N) ∧
      GapsOK m.s.research_gaps ∧ m.s.max_iterations = N
  | .enhance => k = 4 * m.cEval + 5 ∧
      m.s.current_iteration = m.cEval + 1 ∧
      (m.cEval = 0 ∨ m.s.current_iteration < N) ∧
      m.s.search_results ≠ [] ∧ m.s.max_iterations = N
  | .evaluate => k = 4 * m.cEval + 6 ∧
      m.s.current_iteration = m.cEval + 2 ∧
      (m.cEval = 0 ∨ m.s.current_iteration ≤ N) ∧ m.s.max_iterations = N
  | .finalizeRep => k = 4 * m.cEval + 3 ∧ m.cEval ≤ mBound N
  | .ended => 4 * m.cEval + 4 ≤ k ∧ m.cEval ≤ mBound N ∧
      m.s.research_complete = true

theorem inv_step (o : Oracles) (N : Nat)
    (hSearch : ∀ n i, ∃ rs, o.searchRes n i = some rs ∧ rs ≠ [])
    (hGaps : ∀ n gs, o.gapParse n = some gs → ∀ g ∈ gs, g.search_query ≠ "")
    (k : Nat) (m : Machine) (h : Inv N k m) : Inv N (k + 1) (step o m) := by
  cases hn : m.node with
  | clarify =>
    simp only [Inv, hn] at h
    simp only [step, hn, Inv]
    exact ⟨by omega, h.2.1, h.2.2.1, h.2.2.2⟩
  | plan =>
    simp only [Inv, hn] at h
    simp only [step, hn, Inv]
    exact ⟨by omega, h.2.1, h.2.2.1, h.2.2.2⟩
  | generateDraft =>
    simp only [Inv, hn] at h
    simp only [step, hn, Inv]
    refine ⟨by omega, ?_, ?_, h.2.2.2⟩
    · show (1 : Nat) = m.cEval + 1
      omega
    · exact Or.inl h.2.2.1
  | analyzeGaps =>
    simp only [Inv, hn] at h
    obtain ⟨hk, hit, hcond, hmax⟩ := h
    simp only [step, hn]
    have hgOK : GapsOK (gapProcess (o.gapParse m.cGap) (o.gapResp m.cGap)
        (o.gapFid m.cGap) m.s).research_gaps :=
      gapsOK_gapAnalyzerGaps _ _ _ (fun gs hgs => hGaps m.cGap gs hgs)
    have hsg : shouldSearchGaps (gapProcess (o.gapParse m.cGap) (o.gapResp m.cGap)
        (o.gapFid m.cGap) m.s) = "web_search" := by
      unfold shouldSearchGaps
      rw [if_pos ⟨hgOK.1, List.length_pos.mpr hgOK.1⟩]
    rw [if_pos hsg]
    simp only [Inv]
    exact ⟨by omega, hit, hcond, hgOK, hmax⟩
  | webSearch =>
    simp only [Inv, hn] at h
    obtain ⟨hk, hit, hcond, hgOK, hmax⟩ := h
    simp only [step, hn]
    have hs' : webSearchProcess (o.searchRes m.cSearch) m.s
        = { m.s with search_results :=
              webSearchCollect (o.searchRes m.cSearch) m.s.research_gaps } := by
      unfold webSearchProcess
      rw [if_neg hgOK.1]
    rw [hs']
    simp only [Inv]
    refine ⟨by omega, hit, hcond, ?_, hmax⟩
    exact webSearchCollect_ne_nil _ _ hgOK (hSearch m.cSearch)
  | enhance =>
    simp only [Inv, hn] at h
    obtain ⟨hk, hit, hcond, hne, hmax⟩ := h
    simp only [step, hn]
    have hs' : enhancementProcess (o.enhanceResp m.cEnh) m.s
        = { m.s with current_draft := o.enhanceResp m.cEnh
                     previous_drafts := m.s.previous_drafts ++ [m.s.current_draft]
                     sources := m.s.sources ++ m.s.search_results
                     current_iteration := m.s.current_iteration + 1 } := by
      unfold enhancementProcess
      rw [if_neg hne]
    rw [hs']
    simp only [Inv]
    refine ⟨by omega, ?_, ?_, hmax⟩
    · show m.s.current_iteration + 1 = m.cEval + 2
      omega
    · show m.cEval = 0 ∨ m.s.current_iteration + 1 ≤ N
      omega
  | evaluate =>
    simp only [Inv, hn] at h
    obtain ⟨hk, hit, hcond, hmax⟩ := h
    simp only [step, hn]
    by_cases hd : shouldContinueResearch
        (qualityProcess o.pf (o.qualResp m.cEval) m.s) = "finalize"
    · rw [if_pos hd]
      simp only [Inv]
      have h1 := one_le_mBound N
      have h2 := sub_le_mBound N
      exact ⟨by omega, by omega⟩
    · rw [if_neg hd]
      simp only [Inv]
      have hlt := scr_lt_of_ne _ hd
      have hlt2 : m.s.current_iteration < N := by
        have hmax2 : (qualityProcess o.pf (o.qualResp m.cEval) m.s).max_iterations
            = N := hmax
        have hit2 : (qualityProcess o.pf (o.qualResp m.cEval) m.s).current_iteration
            = m.s.current_iteration := rfl
        rw [hmax2, hit2] at hlt
        exact hlt
      refine ⟨by omega, ?_, ?_, hmax⟩
      · show m.s.current_iteration = m.cEval + 1 + 1
        omega
      · show m.cEval + 1 = 0 ∨ m.s.current_iteration < N
        omega
  | finalizeRep =>
    simp only [Inv, hn] at h
    simp only [step, hn, Inv]
    exact ⟨by omega, h.2, rfl⟩
  | ended =>
    simp only [Inv, hn] at h
    simp only [step, hn, Inv, hn]
    exact ⟨by omega, h.2.1, h.2.2⟩

theorem inv_run (o : Oracles) (q c : String) (N : Nat) (t : ℚ)
    (hSearch : ∀ n i, ∃ rs, o.searchRes n i = some rs ∧ rs ≠ [])
    (hGaps : ∀ n gs, o.gapParse n = some gs → ∀ g ∈ gs, g.search_query ≠ "") :
    ∀ k, Inv N k (run o (initMachine q c N t) k) := by
  intro k
  induction k with
  | zero => exact ⟨rfl, rfl, rfl, rfl⟩
  | succ n ih =>
    have : run o (initMachine q c N t) (n + 1)
        = step o (run o (initMachine q c N t) n) := rfl
    rw [this]
    exact inv_step o N hSearch hGaps n _ ih

theorem inv_cEval_le (N k : Nat) (m : Machine) (hN : 1 ≤ N) (h : Inv N k m) :
    m.cEval ≤ N := by
  have h1 := one_le_mBound N
  have h2 := sub_le_mBound N
  have h3 := mBound_le N hN
  cases hn : m.node <;> simp only [Inv, hn] at h <;> omega

theorem inv_completed (N : Nat) (hN : 1 ≤ N) (m : Machine)
    (h : Inv N (4 * mBound N + 4) m) : m.s.research_complete = true := by
  have h1 := one_le_mBound N
  have h2 := sub_le_mBound N
  cases hn : m.node <;> simp only [Inv, hn] at h
  case clarify => omega
  case plan => omega
  case generateDraft => omega
  case analyzeGaps => omega
  case webSearch => omega
  case enhance => omega
  case evaluate => omega
  case finalizeRep => omega
  case ended => exact h.2.2

/-- C1 (corrected): the decision function unconditionally returns
`"finalize"` once `current_iteration ≥ max_iterations`; and **provided every
per-gap search succeeds with a non-empty result list and every parsed gap
carries a non-empty search query** (so that every Enhance step actually
increments the iteration), the workflow run with `max_iterations = N ≥ 1`
never performs more than `N` Evaluate visits and has reached the terminal
state (with `research_complete = true`) after `4 * max 1 (N-1) + 4`
transitions.  Without that proviso the loop is **not** bounded:
`C1_counterexample` exhibits a run (all searches fail) whose Evaluate visits
exceed `N` with the run still incomplete. -/
theorem C1_bounded_termination (o : Oracles) (q c : String) (N : Nat) (t : ℚ)
    (hN : 1 ≤ N)
    (hSearch : ∀ n i, ∃ rs, o.searchRes n i = some rs ∧ rs ≠ [])
    (hGaps : ∀ n gs, o.gapParse n = some gs → ∀ g ∈ gs, g.search_query ≠ "") :
    (∀ s : RState, s.max_iterations ≤ s.current_iteration →
        shouldContinueResearch s = "finalize") ∧
    (∀ k, (run o (initMachine q c N t) k).cEval ≤ N) ∧
    (run o (initMachine q c N t) (4 * mBound N + 4)).s.research_complete
      = true := by
  have hinv := inv_run o q c N t hSearch hGaps
  refine ⟨fun s h => scr_finalize_of_bound s h, ?_, ?_⟩
  · intro k
    exact inv_cEval_le N k _ hN (hinv k)
  · exact inv_completed N hN _ (hinv (4 * mBound N + 4))

/-- Oracles of a healthy run: the fallback gap is used on every pass and
every search returns one result. -/
def oGood : Oracles :=
  { pf := parseDecimal, clarifyResp := "", planResp := "", draftResp := "d"
    gapResp := fun _ => "", gapParse := fun _ => some []
    gapFid := fun _ => "f", searchRes := fun _ _ => some [srDemo]
    enhanceResp := fun _ => "e", qualResp := fun _ => "OVERALL_QUALITY: 0.4"
    finalResp := "fr" }

theorem C1_bounded_termination_witness :
    (1 : Nat) ≤ 2 ∧
    (run oGood (initMachine "q" "" 2 0.85) (4 * mBound 2 + 4)).s.research_complete
      = true :=
  ⟨by norm_num,
    (C1_bounded_termination oGood "q" "" 2 0.85 (by norm_num)
      (fun n i => ⟨[srDemo], rfl, by simp⟩)
      (fun n gs hgs => by
        simp only [oGood] at hgs
        have hgs2 : gs = ([] : List ResearchGap) := by simpa using hgs.symm
        subst hgs2
        intro g hg
        exact (List.not_mem_nil g hg).elim)).2.2⟩

/-- Oracles of a stalled run: every per-gap search raises, so
`search_results` is always empty and Enhance never increments the
iteration. -/
def oBad : Oracles :=
  { pf := parseDecimal, clarifyResp := "", planResp := "", draftResp := "d"
    gapResp := fun _ => "", gapParse := fun _ => some []
    gapFid := fun _ => "f", searchRes := fun _ _ => none
    enhanceResp := fun _ => "e", qualResp := fun _ => "OVERALL_QUALITY: 0.4"
    finalResp := "fr" }

/-- C1 counterexample: with `max_iterations = 2` and every search failing,
after 20 transitions the run has visited Evaluate 4 times (more than
`N = 2`), has not finalized, and is still inside the loop — the loop is not
bounded by `max_iterations` for every run. -/
theorem C1_counterexample :
    (run oBad (initMachine "q" "" 2 0.85) 20).cEval = 4 ∧
    (run oBad (initMachine "q" "" 2 0.85) 20).s.research_complete = false ∧
    (run oBad (initMachine "q" "" 2 0.85) 20).node = WNode.webSearch := by
  with_unfolding_all decide

end TTDDR
